import Mathlib

/-!
# Verification of the `atomic_agents` YouTube transcript tool and agent loop

Shallow embedding of `src/atomic_agents/lib/tools/yt_transcript_scraper_tool.py`
together with a spec-modelled Agent Execution Loop (the `BaseAgent` /
`BaseIOSchema` framework code is not part of the excerpt; only its consumers
are).  External services (the YouTube Transcript API and the YouTube Data API)
are modelled as an explicit environment of response oracles; Python exceptions
are modelled as `Except` errors; Python `str.split` is embedded on `List Char`
specialised to the two separators the code uses (`"v="` and `"&"`).
-/

set_option autoImplicit false

namespace AtomicAgents

/-- A JSON-like runtime value, modelling the payloads that pydantic validates. -/
inductive Value where
  | vNull : Value
  | vStr : String → Value
  | vNum : ℚ → Value
  | vList : List Value → Value
  | vDict : List (String × Value) → Value

/-- One transcript segment as returned by `YouTubeTranscriptApi.get_transcript`:
a dict with `"text"`, `"start"` and `"duration"` fields. -/
structure TranscriptSegment where
  text : String
  start : ℚ
  duration : ℚ
  deriving DecidableEq, Repr

/-- The `snippet` part of one item of the YouTube Data API `videos().list`
response: the fields the code reads. -/
structure Snippet where
  title : String
  channelTitle : String
  publishedAt : String
  deriving DecidableEq, Repr

/-- Errors of the transcript fetch: the two exception classes the code
catches (`NoTranscriptFound`, `TranscriptsDisabled`) and any other exception a
real call may raise, which the code does not catch. -/
inductive FetchErr where
  | noTranscriptFound : String → FetchErr
  | transcriptsDisabled : String → FetchErr
  | otherExc : String → FetchErr
  deriving DecidableEq, Repr

/-- The external world as the tool observes it: a response oracle for
`YouTubeTranscriptApi.get_transcript video_id languages` and one for the
YouTube Data API `videos().list(part="snippet", id=video_id)` request built
with a given developer key.  `videosList` returns the list of item snippets on
success and an uncaught exception message on transport failure. -/
structure ExtEnv where
  getTranscript : String → Option String → Except FetchErr (List TranscriptSegment)
  videosList : Option String → String → Except String (List Snippet)

/-- `YouTubeTranscriptToolConfig`: carries the API key.  In the Python source
the pydantic field is annotated `str` but its default is
`os.getenv("YOUTUBE_API_KEY")`, which may be `None`, so the carried value is an
optional string. -/
structure YouTubeTranscriptToolConfig where
  api_key : Option String
  deriving DecidableEq, Repr

/-- The default `YouTubeTranscriptToolConfig`: its `api_key` default is read
from the process environment (`os.getenv("YOUTUBE_API_KEY")`) when the module
is loaded. -/
def defaultYouTubeConfig (envVars : List (String × String)) : YouTubeTranscriptToolConfig :=
  ⟨List.lookup "YOUTUBE_API_KEY" envVars⟩

/-- The state of a `YouTubeTranscriptTool` instance: `__init__` stores only
`self.api_key = config.api_key`. -/
structure YouTubeTranscriptTool where
  api_key : Option String
  deriving DecidableEq, Repr

/-- `YouTubeTranscriptTool.__init__(config)`: copies `config.api_key` into the
instance.  The process environment is passed explicitly to express that the
constructor never reads it. -/
def mkYouTubeTranscriptTool (config : YouTubeTranscriptToolConfig)
    (_envVars : List (String × String)) : YouTubeTranscriptTool :=
  ⟨config.api_key⟩

/-- `YouTubeTranscriptToolInputSchema`: required `video_url`, optional
`language`. -/
structure YouTubeTranscriptToolInputSchema where
  video_url : String
  language : Option String
  deriving DecidableEq, Repr

/-- `YouTubeTranscriptToolOutputSchema`: transcript text, total duration,
comments, metadata.  The metadata dict is a string-keyed association list, as
built by `fetch_video_metadata`. -/
structure YouTubeTranscriptToolOutputSchema where
  transcript : String
  duration : ℚ
  comments : List String
  metadata : List (String × String)
  deriving DecidableEq, Repr

/-! ## Python `str.split`, specialised to the separators `"v="` and `"&"` -/

/-- Prepend a character to the first chunk of a split result (helper for the
split embeddings). -/
def consHead (c : Char) : List (List Char) → List (List Char)
  | [] => [[c]]
  | p :: ps => (c :: p) :: ps

/-- Python `s.split("v=")` on the character list of `s`. -/
def splitVEq : List Char → List (List Char)
  | [] => [[]]
  | [c] => [[c]]
  | a :: b :: cs =>
    if a = 'v' ∧ b = '=' then [] :: splitVEq cs
    else consHead a (splitVEq (b :: cs))

/-- Python `s.split("&")` on the character list of `s`. -/
def splitAmp : List Char → List (List Char)
  | [] => [[]]
  | c :: cs =>
    if c = '&' then [] :: splitAmp cs
    else consHead c (splitAmp cs)

/-- `YouTubeTranscriptTool.extract_video_id` on character lists:
`url.split("v=")[-1].split("&")[0]`. -/
def extractVideoIdL (url : List Char) : List Char :=
  ((splitAmp ((splitVEq url).getLastD [])).headD [])

/-- `YouTubeTranscriptTool.extract_video_id(url)`:
`url.split("v=")[-1].split("&")[0]`. -/
def extract_video_id (url : String) : String :=
  ⟨extractVideoIdL url.data⟩

/-! ## The tool's `run` -/

/-- A Python exception escaping `run`: either one the tool raises itself
(`raise Exception(...)` with a formatted message) or one propagating uncaught
from an external call. -/
inductive ToolExc where
  | raised : String → ToolExc
  | propagated : String → ToolExc
  deriving DecidableEq, Repr

/-- One external call performed during `run`, recorded for counting. -/
inductive ExtCall where
  | fetchTranscript : String → Option String → ExtCall
  | metadataRequest : Option String → String → ExtCall
  deriving DecidableEq, Repr

/-- The effective `languages` argument of the transcript fetch: Python tests
`if params.language:`, so `None` and the empty string both take the
no-languages branch. -/
def effectiveLanguage (params : YouTubeTranscriptToolInputSchema) : Option String :=
  match params.language with
  | none => none
  | some l => if l = "" then none else some l

/-- `YouTubeTranscriptTool.fetch_video_metadata(video_id)`: issues the
`videos().list` request with the instance's key; raises
`"No metadata found for video '<id>'"` when `response["items"]` is empty,
otherwise builds the metadata dict from the first item's snippet. -/
def fetch_video_metadata (tool : YouTubeTranscriptTool) (env : ExtEnv) (video_id : String) :
    Except ToolExc (List (String × String)) :=
  match env.videosList tool.api_key video_id with
  | .error e => .error (.propagated e)
  | .ok [] => .error (.raised ("No metadata found for video '" ++ video_id ++ "'"))
  | .ok (snip :: _) =>
    .ok [("id", video_id), ("title", snip.title), ("channel", snip.channelTitle),
         ("published_at", snip.publishedAt)]

/-- `YouTubeTranscriptTool.run(params)`, instrumented with the list of
external calls it performs.  The tool instance is threaded through unchanged:
the method body never assigns to `self`. -/
def runYouTubeTranscriptTool (tool : YouTubeTranscriptTool) (env : ExtEnv)
    (params : YouTubeTranscriptToolInputSchema) :
    YouTubeTranscriptTool × List ExtCall × Except ToolExc YouTubeTranscriptToolOutputSchema :=
  let video_id := extract_video_id params.video_url
  let lang := effectiveLanguage params
  match env.getTranscript video_id lang with
  | .error (.noTranscriptFound m) =>
    (tool, [.fetchTranscript video_id lang],
      .error (.raised ("Failed to fetch transcript for video '" ++ video_id ++ "': " ++ m)))
  | .error (.transcriptsDisabled m) =>
    (tool, [.fetchTranscript video_id lang],
      .error (.raised ("Failed to fetch transcript for video '" ++ video_id ++ "': " ++ m)))
  | .error (.otherExc m) =>
    (tool, [.fetchTranscript video_id lang], .error (.propagated m))
  | .ok transcripts =>
    let transcript_text := String.intercalate " " (transcripts.map TranscriptSegment.text)
    let total_duration := (transcripts.map TranscriptSegment.duration).sum
    match fetch_video_metadata tool env video_id with
    | .error e =>
      (tool, [.fetchTranscript video_id lang, .metadataRequest tool.api_key video_id], .error e)
    | .ok metadata =>
      (tool, [.fetchTranscript video_id lang, .metadataRequest tool.api_key video_id],
        .ok ⟨transcript_text, total_duration, [], metadata⟩)

/-- The result component of `run`. -/
def runResult (tool : YouTubeTranscriptTool) (env : ExtEnv)
    (params : YouTubeTranscriptToolInputSchema) :
    Except ToolExc YouTubeTranscriptToolOutputSchema :=
  (runYouTubeTranscriptTool tool env params).2.2

/-- The post-state of a sequence of `run` calls, each threaded through the
tool state returned by the previous one. -/
def runSeq (tool : YouTubeTranscriptTool) :
    List (ExtEnv × YouTubeTranscriptToolInputSchema) → YouTubeTranscriptTool
  | [] => tool
  | (env, params) :: rest => runSeq (runYouTubeTranscriptTool tool env params).1 rest

/-- Whether an external call is a transcript fetch. -/
def isFetchCall : ExtCall → Bool
  | .fetchTranscript _ _ => true
  | .metadataRequest _ _ => false

/-- Whether an external call is a metadata request. -/
def isMetadataCall : ExtCall → Bool
  | .fetchTranscript _ _ => false
  | .metadataRequest _ _ => true

/-! ## Output-schema conformance -/

/-- Whether a value is a string. -/
def isStr : Value → Bool
  | .vStr _ => true
  | _ => false

/-- Structural validation of a raw value against
`YouTubeTranscriptToolOutputSchema`: a dict with a string `transcript`, a
numeric `duration`, a `comments` list of strings and a `metadata` mapping. -/
def conformsToOutputSchema : Value → Bool
  | .vDict fields =>
    (match List.lookup "transcript" fields with
     | some (.vStr _) => true
     | _ => false) &&
    (match List.lookup "duration" fields with
     | some (.vNum _) => true
     | _ => false) &&
    (match List.lookup "comments" fields with
     | some (.vList l) => l.all isStr
     | _ => false) &&
    (match List.lookup "metadata" fields with
     | some (.vDict _) => true
     | _ => false)
  | _ => false

/-- The raw value of a `YouTubeTranscriptToolOutputSchema` instance. -/
def outputToValue (o : YouTubeTranscriptToolOutputSchema) : Value :=
  .vDict [("transcript", .vStr o.transcript),
          ("duration", .vNum o.duration),
          ("comments", .vList (o.comments.map Value.vStr)),
          ("metadata", .vDict (o.metadata.map (fun kv => (kv.1, Value.vStr kv.2))))]

/-! ## Schema construction (spec-modelled) -/

/-- A validation error naming the offending field. -/
structure SchemaValidationError where
  offendingField : String
  deriving DecidableEq, Repr

/-- Modelled from the spec: pydantic-style construction/validation of
`YouTubeTranscriptToolInputSchema` (the `BaseIOSchema` machinery is not under
`src/`; only the field declarations are).  The required field `video_url` must
be present and a string; the optional field `language` may be omitted or null,
and must be a string when given; a missing or type-invalid field fails with a
`SchemaValidationError` naming it. -/
def validateYouTubeInput (raw : List (String × Value)) :
    Except SchemaValidationError YouTubeTranscriptToolInputSchema :=
  match List.lookup "video_url" raw with
  | some (.vStr u) =>
    match List.lookup "language" raw with
    | none => .ok ⟨u, none⟩
    | some .vNull => .ok ⟨u, none⟩
    | some (.vStr l) => .ok ⟨u, some l⟩
    | some _ => .error ⟨"language"⟩
  | _ => .error ⟨"video_url"⟩

/-! ## The Agent Execution Loop (spec-modelled) -/

/-- A message role. -/
inductive Role where
  | user : Role
  | assistant : Role
  | sys : Role
  | toolRole : Role
  deriving DecidableEq, Repr

/-- One turn of conversation: a role and a payload. -/
structure ChatMessage where
  role : Role
  payload : Value

/-- The typed failures of the Agent Execution Loop. -/
inductive AgentError where
  | schemaValidationError : String → AgentError
  | modelBackendError : String → AgentError
  | modelOutputValidationError : AgentError

/-- Modelled from the spec: an Agent Execution Loop instance (`BaseAgent` is
not under `src/`): input and output schema validators, and the injected model
backend `complete(request) -> raw response | fails`. -/
structure AgentModel where
  inputValid : Value → Bool
  outputValid : Value → Bool
  backend : List ChatMessage → Except String Value

/-- Modelled from the spec: the Agent Execution Loop `run` of §4.4
(`BaseAgent.run` is not under `src/`).  Validates the input, appends it as a
`user` message, invokes the backend on the request built from memory, validates
the response against the output schema, appends it as an `assistant` message
and returns it; on output-validation failure only the user append persists. -/
def agentRun (agent : AgentModel) (memory : List ChatMessage) (input : Value) :
    List ChatMessage × Except AgentError Value :=
  if agent.inputValid input then
    let memUser := memory ++ [⟨Role.user, input⟩]
    match agent.backend memUser with
    | .error m => (memUser, .error (.modelBackendError m))
    | .ok resp =>
      if agent.outputValid resp then
        (memUser ++ [⟨Role.assistant, resp⟩], .ok resp)
      else
        (memUser, .error .modelOutputValidationError)
  else
    (memory, .error (.schemaValidationError "input"))

/-! ## Occurrence structure of `"v="`, for the `extract_video_id` claim -/

/-- Whether the character list contains an occurrence of `"v="`. -/
def hasVEq : List Char → Bool
  | [] => false
  | [_] => false
  | a :: b :: cs => if a = 'v' ∧ b = '=' then true else hasVEq (b :: cs)

/-- Reference definition, following the claim wording: the suffix strictly
after the last occurrence of `"v="`, or the whole list when there is no
occurrence. -/
def afterLastVEq : List Char → List Char
  | [] => []
  | [c] => [c]
  | a :: b :: cs =>
    if a = 'v' ∧ b = '=' then afterLastVEq cs
    else if hasVEq (b :: cs) then afterLastVEq (b :: cs) else a :: b :: cs

/-! ## Concrete sample data for counterexamples and witnesses -/

/-- A sample video snippet. -/
def sampleSnippet : Snippet := ⟨"Title", "Channel", "2024-01-01T00:00:00Z"⟩

/-- A sample tool instance holding a key. -/
def toolA : YouTubeTranscriptTool := ⟨some "key"⟩

/-- A sample input: a watch URL, no language. -/
def inputA : YouTubeTranscriptToolInputSchema :=
  ⟨"https://www.youtube.com/watch?v=abc123", none⟩

/-- Two sample transcript segments. -/
def sampleSegs : List TranscriptSegment := [⟨"hello", 0, 2⟩, ⟨"world", 2, 3⟩]

/-- An environment where every external call succeeds. -/
def envHappy : ExtEnv := ⟨fun _ _ => .ok sampleSegs, fun _ _ => .ok [sampleSnippet]⟩

/-- An environment where the transcript fetch raises an exception that is
neither `NoTranscriptFound` nor `TranscriptsDisabled`, and the metadata request
succeeds with one item. -/
def envNetworkDown : ExtEnv :=
  ⟨fun _ _ => .error (.otherExc "network unreachable"), fun _ _ => .ok [sampleSnippet]⟩

/-- An environment where the transcript fetch raises `NoTranscriptFound`. -/
def envNoTranscript : ExtEnv :=
  ⟨fun _ _ => .error (.noTranscriptFound "no transcript"), fun _ _ => .ok [sampleSnippet]⟩

/-- An environment where the metadata request returns no items. -/
def envNoItems : ExtEnv := ⟨fun _ _ => .ok sampleSegs, fun _ _ => .ok []⟩

/-- A stub agent whose backend always returns the fixed payload `"hi"`. -/
def stubAgent : AgentModel :=
  ⟨fun _ => true, fun _ => true, fun _ => .ok (.vStr "hi")⟩

/-- A stub agent whose backend returns a payload that fails output
validation. -/
def badOutputAgent : AgentModel :=
  ⟨fun _ => true, fun _ => false, fun _ => .ok (.vStr "bad")⟩

/-! ## Lemmas about the split embeddings -/

lemma splitVEq_ne_nil (s : List Char) : splitVEq s ≠ [] := by
  induction s using splitVEq.induct with
  | case1 => simp [splitVEq]
  | case2 c => simp [splitVEq]
  | case3 a b cs h ih => simp [splitVEq, h]
  | case4 a b cs h ih =>
    simp only [splitVEq, if_neg h]
    cases hsp : splitVEq (b :: cs) with
    | nil => exact absurd hsp ih
    | cons p ps => simp [consHead]

lemma splitAmp_ne_nil (s : List Char) : splitAmp s ≠ [] := by
  induction s with
  | nil => simp [splitAmp]
  | cons c cs ih =>
    by_cases h : c = '&'
    · simp [splitAmp, h]
    · simp only [splitAmp, if_neg h]
      cases hsp : splitAmp cs with
      | nil => exact absurd hsp ih
      | cons p ps => simp [consHead]

lemma splitVEq_of_not_hasVEq (s : List Char) (h : hasVEq s = false) : splitVEq s = [s] := by
  induction s using splitVEq.induct with
  | case1 => rfl
  | case2 c => rfl
  | case3 a b cs hc ih => simp [hasVEq, hc] at h
  | case4 a b cs hc ih =>
    have hbc : hasVEq (b :: cs) = false := by
      simpa [hasVEq, hc] using h
    simp [splitVEq, if_neg hc, ih hbc, consHead]

lemma two_le_length_splitVEq (s : List Char) (h : hasVEq s = true) :
    2 ≤ (splitVEq s).length := by
  induction s using splitVEq.induct with
  | case1 => simp [hasVEq] at h
  | case2 c => simp [hasVEq] at h
  | case3 a b cs hc ih =>
    simp only [splitVEq, if_pos hc, List.length_cons]
    have hne := splitVEq_ne_nil cs
    have h1 : 1 ≤ (splitVEq cs).length := by
      cases hsp : splitVEq cs with
      | nil => exact absurd hsp hne
      | cons p ps => simp
    omega
  | case4 a b cs hc ih =>
    have hbc : hasVEq (b :: cs) = true := by
      simpa [hasVEq, hc] using h
    have h2 := ih hbc
    simp only [splitVEq, if_neg hc]
    cases hsp : splitVEq (b :: cs) with
    | nil => exact absurd hsp (splitVEq_ne_nil _)
    | cons p ps => simp_all [consHead]

lemma afterLastVEq_of_not_hasVEq (s : List Char) (h : hasVEq s = false) :
    afterLastVEq s = s := by
  induction s using afterLastVEq.induct with
  | case1 => rfl
  | case2 c => rfl
  | case3 a b cs hc ih => simp [hasVEq, hc] at h
  | case4 a b cs hc hbc ih => simp [hasVEq, hc, hbc] at h
  | case5 a b cs hc hbc =>
    have hbc' : hasVEq (b :: cs) = false := by simpa using hbc
    simp [afterLastVEq, if_neg hc, hbc']

lemma getLast?_splitVEq (s : List Char) :
    (splitVEq s).getLast? = some (afterLastVEq s) := by
  induction s using splitVEq.induct with
  | case1 => rfl
  | case2 c => rfl
  | case3 a b cs hc ih =>
    simp only [splitVEq, if_pos hc, afterLastVEq]
    rw [← ih]
    cases hsp : splitVEq cs with
    | nil => exact absurd hsp (splitVEq_ne_nil _)
    | cons p ps => simp [List.getLast?_cons_cons]
  | case4 a b cs hc ih =>
    by_cases hbc : hasVEq (b :: cs)
    · have h2 := two_le_length_splitVEq _ hbc
      simp only [splitVEq, if_neg hc, afterLastVEq, hbc, if_true]
      rw [← ih]
      match hsp : splitVEq (b :: cs) with
      | [] => exact absurd hsp (splitVEq_ne_nil _)
      | [p] => rw [hsp] at h2; simp at h2
      | p :: q :: ps => simp [consHead, List.getLast?_cons_cons]
    · have hbc' : hasVEq (b :: cs) = false := by simpa using hbc
      simp [splitVEq, if_neg hc, afterLastVEq, hbc',
        splitVEq_of_not_hasVEq _ hbc', consHead]

lemma head?_splitAmp (s : List Char) :
    (splitAmp s).head? = some (s.takeWhile (fun c => c ≠ '&')) := by
  induction s with
  | nil => rfl
  | cons c cs ih =>
    by_cases h : c = '&'
    · simp [splitAmp, h, List.takeWhile]
    · simp only [splitAmp, if_neg h]
      cases hsp : splitAmp cs with
      | nil => exact absurd hsp (splitAmp_ne_nil _)
      | cons p ps =>
        rw [hsp] at ih
        simp only [List.head?, Option.some.injEq] at ih
        simp [consHead, List.takeWhile, h, ih, ne_eq, decide_not]

lemma hasVEq_append (a b : List Char) : hasVEq (a ++ 'v' :: '=' :: b) = true := by
  induction a with
  | nil => simp [hasVEq]
  | cons c a' ih =>
    cases h : a' ++ 'v' :: '=' :: b with
    | nil => simp at h
    | cons r rs =>
      rw [List.cons_append, h]
      by_cases hc : c = 'v' ∧ r = '='
      · simp [hasVEq, hc]
      · simp only [hasVEq, if_neg hc]
        rw [← h]; exact ih

lemma afterLastVEq_vEq_cons (b : List Char) (hb : hasVEq b = false) :
    afterLastVEq ('v' :: '=' :: b) = b := by
  simp [afterLastVEq, afterLastVEq_of_not_hasVEq b hb]

lemma afterLastVEq_append (a b : List Char) (hb : hasVEq b = false) :
    afterLastVEq (a ++ 'v' :: '=' :: b) = b := by
  suffices H : ∀ (n : ℕ) (a : List Char), a.length ≤ n →
      ∀ (b : List Char), hasVEq b = false → afterLastVEq (a ++ 'v' :: '=' :: b) = b by
    exact H a.length a le_rfl b hb
  intro n
  induction n with
  | zero =>
    intro a ha b hb
    have ha0 : a = [] := List.length_eq_zero.mp (Nat.le_zero.mp ha)
    subst ha0
    simpa using afterLastVEq_vEq_cons b hb
  | succ n ih =>
    intro a ha b hb
    rcases a with _ | ⟨c, a'⟩
    · simpa using afterLastVEq_vEq_cons b hb
    rcases a' with _ | ⟨d, a''⟩
    · have hhas : hasVEq ('v' :: '=' :: b) = true := by simp [hasVEq]
      have hc : ¬(c = 'v' ∧ 'v' = '=') := by
        rintro ⟨-, h2⟩
        exact absurd h2 (by decide)
      simp [afterLastVEq, hc, hhas, afterLastVEq_vEq_cons b hb,
        afterLastVEq_of_not_hasVEq b hb]
    · by_cases hcd : c = 'v' ∧ d = '='
      · have hlen : a''.length ≤ n := by
          simp only [List.length_cons] at ha
          omega
        simp only [List.cons_append]
        simp [afterLastVEq, hcd, ih a'' hlen b hb]
      · have hhas : hasVEq (d :: (a'' ++ 'v' :: '=' :: b)) = true := by
          simpa using hasVEq_append (d :: a'') b
        have hlen : (d :: a'').length ≤ n := by
          simp only [List.length_cons] at ha ⊢
          omega
        have hrec := ih (d :: a'') hlen b hb
        simp only [List.cons_append] at hrec ⊢
        simp [afterLastVEq, hcd, hhas, hrec]

lemma extractVideoIdL_eq (s : List Char) :
    extractVideoIdL s = (afterLastVEq s).takeWhile (fun c => c ≠ '&') := by
  rw [extractVideoIdL, List.getLastD_eq_getLast?, getLast?_splitVEq]
  simp only [Option.getD_some]
  rw [List.headD_eq_head?, head?_splitAmp]
  simp

/-! ## Lemmas about `run` and the output schema -/

lemma conformsToOutputSchema_outputToValue (o : YouTubeTranscriptToolOutputSchema) :
    conformsToOutputSchema (outputToValue o) = true := by
  have hall : (o.comments.map Value.vStr).all isStr = true := by
    induction o.comments with
    | nil => rfl
    | cons c cs ih => simp [isStr, ih]
  simp [conformsToOutputSchema, outputToValue, List.lookup, hall]

lemma runYouTubeTranscriptTool_fst (tool : YouTubeTranscriptTool) (env : ExtEnv)
    (params : YouTubeTranscriptToolInputSchema) :
    (runYouTubeTranscriptTool tool env params).1 = tool := by
  cases h1 : env.getTranscript (extract_video_id params.video_url) (effectiveLanguage params) with
  | error e => cases e <;> simp [runYouTubeTranscriptTool, h1]
  | ok segs =>
    cases h2 : fetch_video_metadata tool env (extract_video_id params.video_url) with
    | error e => simp [runYouTubeTranscriptTool, h1, h2]
    | ok md => simp [runYouTubeTranscriptTool, h1, h2]

/-! ## The claims -/

/-- C1: on every input on which `YouTubeTranscriptTool.run` returns, the
returned value is a validated instance of the declared output schema: its raw
value is a dict whose four fields `transcript` (string), `duration` (number),
`comments` (list of strings) and `metadata` (mapping) are present and
type-valid; `run` never returns data that does not conform. -/
theorem c1_run_output_conforms_to_schema (tool : YouTubeTranscriptTool) (env : ExtEnv)
    (params : YouTubeTranscriptToolInputSchema) (out : YouTubeTranscriptToolOutputSchema)
    (_hok : runResult tool env params = .ok out) :
    conformsToOutputSchema (outputToValue out) = true :=
  conformsToOutputSchema_outputToValue out

/-- Witness for C1: a concrete successful run whose output conforms. -/
theorem c1_run_output_conforms_to_schema_witness :
    runResult toolA envHappy inputA = .ok ⟨"hello world", 5, [],
      [("id", "abc123"), ("title", "Title"), ("channel", "Channel"),
       ("published_at", "2024-01-01T00:00:00Z")]⟩ ∧
    conformsToOutputSchema (outputToValue ⟨"hello world", 5, [],
      [("id", "abc123"), ("title", "Title"), ("channel", "Channel"),
       ("published_at", "2024-01-01T00:00:00Z")]⟩) = true := by
  have hd : ((sampleSegs.map TranscriptSegment.duration).sum : ℚ) = 5 := by
    norm_num [sampleSegs]
  have h : runResult toolA envHappy inputA = .ok ⟨"hello world", 5, [],
      [("id", "abc123"), ("title", "Title"), ("channel", "Channel"),
       ("published_at", "2024-01-01T00:00:00Z")]⟩ := by
    rw [← hd]
    rfl
  exact ⟨h, c1_run_output_conforms_to_schema toolA envHappy inputA _ h⟩

/-- C2 counterexample: `run` can fail although the transcript fetch raised
neither `NoTranscriptFound` nor `TranscriptsDisabled` and the metadata lookup
had items: an uncaught exception of the fetch propagates, so failure is not
equivalent to the claim's two conditions. -/
theorem c2_counterexample_uncaught_failure :
    runResult toolA envNetworkDown inputA = .error (.propagated "network unreachable") ∧
    envNetworkDown.getTranscript (extract_video_id inputA.video_url) (effectiveLanguage inputA)
      = .error (.otherExc "network unreachable") ∧
    envNetworkDown.videosList toolA.api_key (extract_video_id inputA.video_url)
      = .ok [sampleSnippet] :=
  ⟨rfl, rfl, rfl⟩

/-- C2 (amended): `run` raises an error carrying the video id and the
underlying cause when the transcript fetch fails with `NoTranscriptFound` or
`TranscriptsDisabled`, and raises when the metadata lookup returns no items;
other failures of the external calls propagate uncaught, so these two
conditions are sufficient but not necessary for failure. -/
theorem c2_amended_failure_cases (tool : YouTubeTranscriptTool)
    (params : YouTubeTranscriptToolInputSchema) :
    (∀ (env : ExtEnv) (m : String),
      (env.getTranscript (extract_video_id params.video_url) (effectiveLanguage params)
          = .error (.noTranscriptFound m) ∨
       env.getTranscript (extract_video_id params.video_url) (effectiveLanguage params)
          = .error (.transcriptsDisabled m)) →
      runResult tool env params = .error (.raised
        ("Failed to fetch transcript for video '" ++ extract_video_id params.video_url
          ++ "': " ++ m))) ∧
    (∀ (env : ExtEnv) (segs : List TranscriptSegment),
      env.getTranscript (extract_video_id params.video_url) (effectiveLanguage params)
          = .ok segs →
      env.videosList tool.api_key (extract_video_id params.video_url) = .ok [] →
      runResult tool env params = .error (.raised
        ("No metadata found for video '" ++ extract_video_id params.video_url ++ "'"))) := by
  constructor
  · rintro env m (h | h) <;> simp [runResult, runYouTubeTranscriptTool, h]
  · intro env segs hts hmd
    simp [runResult, runYouTubeTranscriptTool, hts, fetch_video_metadata, hmd]

/-- Witness for C2 (amended): the two raising cases at concrete
environments. -/
theorem c2_amended_failure_cases_witness :
    runResult toolA envNoTranscript inputA = .error (.raised
      ("Failed to fetch transcript for video '" ++ extract_video_id inputA.video_url
        ++ "': " ++ "no transcript")) ∧
    runResult toolA envNoItems inputA = .error (.raised
      ("No metadata found for video '" ++ extract_video_id inputA.video_url ++ "'")) :=
  ⟨(c2_amended_failure_cases toolA inputA).1 envNoTranscript "no transcript" (Or.inl rfl),
   (c2_amended_failure_cases toolA inputA).2 envNoItems sampleSegs rfl rfl⟩

/-- C3: with a model backend stub that always returns a fixed conformant
payload, every `run` of the Agent Execution Loop returns that payload as
validated output and grows Conversation Memory by exactly two entries, a user
message followed by an assistant message. -/
theorem c3_agent_run_with_stub_backend (agent : AgentModel) (memory : List ChatMessage)
    (input payload : Value)
    (hstub : ∀ request, agent.backend request = .ok payload)
    (hin : agent.inputValid input = true)
    (hout : agent.outputValid payload = true) :
    agentRun agent memory input =
      (memory ++ [⟨Role.user, input⟩, ⟨Role.assistant, payload⟩], .ok payload) ∧
    (agentRun agent memory input).1.length = memory.length + 2 := by
  have h : agentRun agent memory input =
      (memory ++ [⟨Role.user, input⟩, ⟨Role.assistant, payload⟩], .ok payload) := by
    simp [agentRun, hin, hstub, hout]
  exact ⟨h, by simp [h]⟩

/-- Witness for C3: the stub agent at a concrete input. -/
theorem c3_agent_run_with_stub_backend_witness :
    agentRun stubAgent [] (.vStr "q") =
      ([] ++ [⟨Role.user, .vStr "q"⟩, ⟨Role.assistant, .vStr "hi"⟩], .ok (.vStr "hi")) ∧
    (agentRun stubAgent [] (.vStr "q")).1.length = List.length ([] : List ChatMessage) + 2 :=
  c3_agent_run_with_stub_backend stubAgent [] (.vStr "q") (.vStr "hi") (fun _ => rfl) rfl rfl

/-- C4: when the model backend returns a payload failing output-schema
validation, `run` fails with `ModelOutputValidationError` and Memory afterwards
contains exactly the preceding user append, with no assistant entry from the
failed turn. -/
theorem c4_output_validation_failure_atomic (agent : AgentModel) (memory : List ChatMessage)
    (input resp : Value)
    (hin : agent.inputValid input = true)
    (hresp : agent.backend (memory ++ [⟨Role.user, input⟩]) = .ok resp)
    (hout : agent.outputValid resp = false) :
    agentRun agent memory input =
      (memory ++ [⟨Role.user, input⟩], .error .modelOutputValidationError) := by
  simp [agentRun, hin, hresp, hout]

/-- Witness for C4: the bad-output agent at a concrete input. -/
theorem c4_output_validation_failure_atomic_witness :
    agentRun badOutputAgent [] (.vStr "q") =
      ([] ++ [⟨Role.user, .vStr "q"⟩], .error .modelOutputValidationError) :=
  c4_output_validation_failure_atomic badOutputAgent [] (.vStr "q") (.vStr "bad") rfl rfl rfl

/-- C5: schema construction fails with a `SchemaValidationError` naming the
offending field when the required `video_url` is missing or type-invalid, and
succeeds when the required field is present and type-valid, the optional
`language` field being omissible. -/
theorem c5_input_schema_validation (raw : List (String × Value)) :
    (List.lookup "video_url" raw = none →
      validateYouTubeInput raw = .error ⟨"video_url"⟩) ∧
    (∀ v, List.lookup "video_url" raw = some v → isStr v = false →
      validateYouTubeInput raw = .error ⟨"video_url"⟩) ∧
    (∀ u, List.lookup "video_url" raw = some (.vStr u) →
      List.lookup "language" raw = none →
      validateYouTubeInput raw = .ok ⟨u, none⟩) ∧
    (∀ u l, List.lookup "video_url" raw = some (.vStr u) →
      List.lookup "language" raw = some (.vStr l) →
      validateYouTubeInput raw = .ok ⟨u, some l⟩) := by
  refine ⟨fun h => ?_, fun v hv hs => ?_, fun u hu hl => ?_, fun u l hu hl => ?_⟩
  · simp [validateYouTubeInput, h]
  · cases v with
    | vStr s => simp [isStr] at hs
    | vNull => simp [validateYouTubeInput, hv]
    | vNum q => simp [validateYouTubeInput, hv]
    | vList l => simp [validateYouTubeInput, hv]
    | vDict d => simp [validateYouTubeInput, hv]
  · simp [validateYouTubeInput, hu, hl]
  · simp [validateYouTubeInput, hu, hl]

/-- Witness for C5: one raw input per case. -/
theorem c5_input_schema_validation_witness :
    validateYouTubeInput [("language", .vStr "en")] = .error ⟨"video_url"⟩ ∧
    validateYouTubeInput [("video_url", .vNum 3)] = .error ⟨"video_url"⟩ ∧
    validateYouTubeInput [("video_url", .vStr "u")] = .ok ⟨"u", none⟩ ∧
    validateYouTubeInput [("video_url", .vStr "u"), ("language", .vStr "en")]
      = .ok ⟨"u", some "en"⟩ :=
  ⟨(c5_input_schema_validation _).1 rfl,
   (c5_input_schema_validation _).2.1 (.vNum 3) rfl rfl,
   (c5_input_schema_validation _).2.2.1 "u" rfl rfl,
   (c5_input_schema_validation _).2.2.2 "u" "en" rfl rfl⟩

/-- C6: the tool is determined by the configuration object alone: equal
configurations yield tools with equal `api_key` and identical `run` behaviour,
whatever the process environment is at construction time. -/
theorem c6_tool_determined_by_config (cfg1 cfg2 : YouTubeTranscriptToolConfig)
    (e1 e2 : List (String × String)) (h : cfg1 = cfg2) :
    mkYouTubeTranscriptTool cfg1 e1 = mkYouTubeTranscriptTool cfg2 e2 ∧
    (mkYouTubeTranscriptTool cfg1 e1).api_key = cfg1.api_key ∧
    ∀ (env : ExtEnv) (params : YouTubeTranscriptToolInputSchema),
      runYouTubeTranscriptTool (mkYouTubeTranscriptTool cfg1 e1) env params =
        runYouTubeTranscriptTool (mkYouTubeTranscriptTool cfg2 e2) env params := by
  subst h
  exact ⟨rfl, rfl, fun _ _ => rfl⟩

/-- Witness for C6: equal configurations under different process environments
give the same tool and the same concrete run. -/
theorem c6_tool_determined_by_config_witness :
    mkYouTubeTranscriptTool ⟨some "key"⟩ [("YOUTUBE_API_KEY", "other")] =
      mkYouTubeTranscriptTool ⟨some "key"⟩ [] ∧
    runYouTubeTranscriptTool (mkYouTubeTranscriptTool ⟨some "key"⟩
        [("YOUTUBE_API_KEY", "other")]) envHappy inputA =
      runYouTubeTranscriptTool (mkYouTubeTranscriptTool ⟨some "key"⟩ []) envHappy inputA :=
  ⟨(c6_tool_determined_by_config ⟨some "key"⟩ ⟨some "key"⟩
      [("YOUTUBE_API_KEY", "other")] [] rfl).1,
   (c6_tool_determined_by_config ⟨some "key"⟩ ⟨some "key"⟩
      [("YOUTUBE_API_KEY", "other")] [] rfl).2.2 envHappy inputA⟩

/-- C7: `run` leaves the tool's stored state, in particular `api_key`,
unchanged whether it returns or fails, so any sequence of `run` calls observes
the same configuration. -/
theorem c7_run_stateless (tool : YouTubeTranscriptTool) :
    (∀ (env : ExtEnv) (params : YouTubeTranscriptToolInputSchema),
      (runYouTubeTranscriptTool tool env params).1 = tool) ∧
    (∀ calls : List (ExtEnv × YouTubeTranscriptToolInputSchema),
      runSeq tool calls = tool ∧ (runSeq tool calls).api_key = tool.api_key) := by
  have h : ∀ (calls : List (ExtEnv × YouTubeTranscriptToolInputSchema))
      (t : YouTubeTranscriptTool), runSeq t calls = t := by
    intro calls
    induction calls with
    | nil => intro t; rfl
    | cons c rest ih =>
      intro t
      rcases c with ⟨env, params⟩
      rw [runSeq, runYouTubeTranscriptTool_fst]
      exact ih t
  exact ⟨runYouTubeTranscriptTool_fst tool,
    fun calls => ⟨h calls tool, by rw [h calls tool]⟩⟩

/-- C8: within one call of `run` the transcript fetch is attempted at most
once and the metadata request at most once; no external call is ever
re-attempted. -/
theorem c8_no_retries (tool : YouTubeTranscriptTool) (env : ExtEnv)
    (params : YouTubeTranscriptToolInputSchema) :
    (runYouTubeTranscriptTool tool env params).2.1.countP isFetchCall ≤ 1 ∧
    (runYouTubeTranscriptTool tool env params).2.1.countP isMetadataCall ≤ 1 := by
  cases h1 : env.getTranscript (extract_video_id params.video_url) (effectiveLanguage params) with
  | error e =>
    cases e <;>
      simp [runYouTubeTranscriptTool, h1, List.countP_cons, isFetchCall, isMetadataCall]
  | ok segs =>
    cases h2 : fetch_video_metadata tool env (extract_video_id params.video_url) with
    | error e =>
      simp [runYouTubeTranscriptTool, h1, h2, List.countP_cons, isFetchCall, isMetadataCall]
    | ok md =>
      simp [runYouTubeTranscriptTool, h1, h2, List.countP_cons, isFetchCall, isMetadataCall]

/-- C9: `extract_video_id` returns the substring strictly between the last
occurrence of `"v="` (the unique decomposition whose tail has no further
`"v="`) and the first `"&"` that follows it, or up to the end when no `"&"`
follows; for a URL with no `"v="` it returns the whole URL up to the first
`"&"` rather than failing. -/
theorem c9_extract_video_id_characterization :
    (∀ url : List Char,
      extractVideoIdL url = (afterLastVEq url).takeWhile (fun c => c ≠ '&')) ∧
    (∀ a b : List Char, hasVEq b = false →
      extractVideoIdL (a ++ 'v' :: '=' :: b) = b.takeWhile (fun c => c ≠ '&')) ∧
    (∀ url : List Char, hasVEq url = false →
      extractVideoIdL url = url.takeWhile (fun c => c ≠ '&')) := by
  refine ⟨extractVideoIdL_eq, fun a b hb => ?_, fun url h => ?_⟩
  · rw [extractVideoIdL_eq, afterLastVEq_append a b hb]
  · rw [extractVideoIdL_eq, afterLastVEq_of_not_hasVEq url h]

/-- Witness for C9: a watch URL with a trailing parameter, and a youtu.be
short link that comes back whole. -/
theorem c9_extract_video_id_characterization_witness :
    extractVideoIdL ("https://www.youtube.com/watch?".data ++ 'v' :: '=' :: "abc123&t=9".data)
      = "abc123".data ∧
    extractVideoIdL "https://youtu.be/dQw4w9WgXcQ".data = "https://youtu.be/dQw4w9WgXcQ".data :=
  ⟨c9_extract_video_id_characterization.2.1 "https://www.youtube.com/watch?".data
      "abc123&t=9".data (by decide),
   c9_extract_video_id_characterization.2.2 "https://youtu.be/dQw4w9WgXcQ".data (by decide)⟩

/-- C10: every successful run over a fetched segment list yields exactly the
reference output: the single-space join of the segment texts, the sum of the
segment durations, an always-empty comments list, and a metadata mapping with
exactly the keys id, title, channel, published_at where id is the extracted
video id. -/
theorem c10_success_output_reference (tool : YouTubeTranscriptTool) (env : ExtEnv)
    (params : YouTubeTranscriptToolInputSchema) (segs : List TranscriptSegment)
    (snip : Snippet) (rest : List Snippet)
    (hts : env.getTranscript (extract_video_id params.video_url) (effectiveLanguage params)
      = .ok segs)
    (hmd : env.videosList tool.api_key (extract_video_id params.video_url)
      = .ok (snip :: rest)) :
    runResult tool env params = .ok
      ⟨String.intercalate " " (segs.map TranscriptSegment.text),
       (segs.map TranscriptSegment.duration).sum, [],
       [("id", extract_video_id params.video_url), ("title", snip.title),
        ("channel", snip.channelTitle), ("published_at", snip.publishedAt)]⟩ := by
  simp [runResult, runYouTubeTranscriptTool, hts, fetch_video_metadata, hmd]

/-- Witness for C10: the reference output at a concrete environment. -/
theorem c10_success_output_reference_witness :
    runResult toolA envHappy inputA = .ok
      ⟨String.intercalate " " (sampleSegs.map TranscriptSegment.text),
       (sampleSegs.map TranscriptSegment.duration).sum, [],
       [("id", extract_video_id inputA.video_url), ("title", sampleSnippet.title),
        ("channel", sampleSnippet.channelTitle), ("published_at", sampleSnippet.publishedAt)]⟩ :=
  c10_success_output_reference toolA envHappy inputA sampleSegs sampleSnippet [] rfl rfl

end AtomicAgents
